import Mathlib

/-!
Verification development for the T1D-AI backend prediction/decay engine.

The Lean definitions below are a shallow embedding of the Python source
under `backend/src`:
  * `services/iob_cob_service.py`   (IOBCOBService)
  * `services/prediction_service.py` (PredictionService)
  * `services/accuracy_service.py`  (AccuracyTracker)
  * `ml/inference/linear_prediction.py` (LinearPredictor)
  * `ml/inference/isf_inference.py` (ISFInferenceService)
  * `ml/feature_engineering.py`     (FeatureEngineer and helpers)

Python floats are modelled as rationals (ℚ); the only genuinely
transcendental computations (the exponential-decay factor `0.5 ** (t/h)`,
`math.sqrt`, `np.sin`/`np.cos`) are modelled in ℝ.  Python's `round`
builtin (banker's rounding, round-half-to-even) is modelled by
`roundEven` below.  Fallible Python code (code that can raise) is
modelled with `Option`.
-/

namespace T1D

/-- Python's `round` builtin on a non-negative-digit call: round half to even. -/
def roundEven {α : Type} [LinearOrderedField α] [FloorRing α] (x : α) : ℤ :=
  if x - (⌊x⌋ : α) < 1/2 then ⌊x⌋
  else if 1/2 < x - (⌊x⌋ : α) then ⌊x⌋ + 1
  else if ⌊x⌋ % 2 = 0 then ⌊x⌋ else ⌊x⌋ + 1

/-- Python `round(x, 2)`. -/
def pyRound2 {α : Type} [LinearOrderedField α] [FloorRing α] (x : α) : α :=
  (roundEven (x * 100) : α) / 100

/-- Python `round(x, 1)`. -/
def pyRound1 {α : Type} [LinearOrderedField α] [FloorRing α] (x : α) : α :=
  (roundEven (x * 10) : α) / 10

/-!  Source: `IOBCOBService.calculate_dose_recommendation`
(`services/iob_cob_service.py`, lines 140-191).

The service's configurable parameters (`__init__`, lines 23-48). -/

structure IOBCOBService where
  insulin_duration_min : ℚ := 180
  insulin_half_life_min : ℚ := 81
  carb_duration_min : ℚ := 180
  carb_half_life_min : ℚ := 45
  carb_bg_factor : ℚ := 4
  target_bg : ℤ := 100

/-- Python `IOBCOBService.calculate_dose_recommendation(current_bg, iob, cob, isf)`:
returns `(recommended_dose, effective_bg)`.  `current_bg` is an `int` in the
source; `effective_bg` is rounded to `int`. -/
def calculate_dose_recommendation (svc : IOBCOBService)
    (current_bg : ℤ) (iob cob isf : ℚ) : ℚ × ℤ :=
  if isf ≤ 0 then
    (0, current_bg)
  else
    let cob_effect : ℚ := cob * svc.carb_bg_factor
    let iob_effect : ℚ := iob * isf
    let effective_bg : ℤ := roundEven ((current_bg : ℚ) + cob_effect - iob_effect)
    let correction_needed : ℤ := effective_bg - svc.target_bg
    if correction_needed ≤ 0 then
      (0, effective_bg)
    else
      let dose : ℚ := (correction_needed : ℚ) / isf
      (pyRound2 (max 0 dose), effective_bg)

/-- Return dictionary of `PredictionService.calculate_dose_correction`
(`services/prediction_service.py`, lines 317-329).  The purely
presentational `formula` string field is omitted. -/
structure DoseCorrection where
  current_bg : ℚ
  target_bg : ℚ
  effective_bg : ℚ
  iob : ℚ
  cob : ℚ
  isf : ℚ
  iob_effect_mgdl : ℚ
  cob_effect_mgdl : ℚ
  raw_correction_units : ℚ
  recommended_dose_units : ℚ
  deriving DecidableEq

/-- Python `PredictionService.calculate_dose_correction(current_bg, target_bg, isf,
iob, cob, cob_ratio=4.0)` (`services/prediction_service.py`, lines 279-329).
There is no guard on `isf`: with `isf == 0` the division
`(effective_bg - target_bg) / isf` raises `ZeroDivisionError`, modelled as
`none`; for any other `isf` (including negative values) the dictionary is
computed and returned. -/
def calculate_dose_correction (current_bg target_bg isf iob cob : ℚ)
    (cobFactor : ℚ := 4) : Option DoseCorrection :=
  let cob_effect : ℚ := cob * cobFactor
  let iob_effect : ℚ := iob * isf
  let effective_bg : ℚ := current_bg + cob_effect - iob_effect
  if isf = 0 then none
  else
    let raw_correction : ℚ := (effective_bg - target_bg) / isf
    let recommended_dose : ℚ := max 0 raw_correction
    some {
      current_bg := current_bg
      target_bg := target_bg
      effective_bg := pyRound1 effective_bg
      iob := pyRound2 iob
      cob := pyRound1 cob
      isf := pyRound1 isf
      iob_effect_mgdl := pyRound1 iob_effect
      cob_effect_mgdl := pyRound1 cob_effect
      raw_correction_units := pyRound2 raw_correction
      recommended_dose_units := pyRound2 recommended_dose }

/-!  Source: `IOBCOBService.calculate_iob` / `calculate_cob`
(`services/iob_cob_service.py`, lines 63-138).

Treatments are `models.schemas.Treatment` values; only the fields the
service reads are modelled.  Timestamps are naive-UTC seconds since the
epoch; `at_time` is the (explicitly supplied) query time. -/

structure Treatment where
  timestamp : ℚ
  insulin : Option ℚ := none
  carbs : Option ℚ := none

/-- The decay factor `0.5 ** x` (Python float power, real exponent). -/
noncomputable def halfPow (x : ℚ) : ℝ := (1/2 : ℝ) ^ (x : ℝ)

/-- Python truthiness filter `t.insulin and t.insulin > 0`. -/
def insulinPositive (t : Treatment) : Bool :=
  match t.insulin with
  | some v => decide (0 < v)
  | none => false

/-- Python truthiness filter `t.carbs and t.carbs > 0`. -/
def carbsPositive (t : Treatment) : Bool :=
  match t.carbs with
  | some v => decide (0 < v)
  | none => false

/-- Python `IOBCOBService.calculate_iob(treatments, at_time)`: exponential decay
with hard cutoff at `insulin_duration_min`; result rounded to 2 decimals. -/
noncomputable def calculate_iob (svc : IOBCOBService)
    (treatments : List Treatment) (at_time : ℚ) : ℝ :=
  if treatments.isEmpty then 0
  else
    pyRound2 (((treatments.filter insulinPositive).map (fun t =>
      if 0 ≤ (at_time - t.timestamp) / 60 ∧
          (at_time - t.timestamp) / 60 ≤ svc.insulin_duration_min then
        ((t.insulin.getD 0 : ℚ) : ℝ) *
          halfPow ((at_time - t.timestamp) / 60 / svc.insulin_half_life_min)
      else 0)).sum)

/-- Python `IOBCOBService.calculate_cob(treatments, at_time)`: same decay model
for carbs; result rounded to 1 decimal. -/
noncomputable def calculate_cob (svc : IOBCOBService)
    (treatments : List Treatment) (at_time : ℚ) : ℝ :=
  if treatments.isEmpty then 0
  else
    pyRound1 (((treatments.filter carbsPositive).map (fun t =>
      if 0 ≤ (at_time - t.timestamp) / 60 ∧
          (at_time - t.timestamp) / 60 ≤ svc.carb_duration_min then
        ((t.carbs.getD 0 : ℚ) : ℝ) *
          halfPow ((at_time - t.timestamp) / 60 / svc.carb_half_life_min)
      else 0)).sum)

/-!  Source: `LinearPredictor` (`ml/inference/linear_prediction.py`). -/

/-- Clamp to the reasonable BG range `[40, 400]` (`max(40.0, min(400.0, p))`). -/
def clampBG (x : ℚ) : ℚ := max 40 (min 400 x)

structure LinearPredictor where
  history_points : ℕ := 6
  prediction_horizons : List ℚ := [5, 10, 15]

/-- Python `np.polyfit(x, y, 1)` as its least-squares closed form, returning
`(slope, intercept)`; when the normal-equation determinant is zero the
source's `except` fallback (slope 0, intercept `np.mean(y)`) applies. -/
def polyfit1 (xs ys : List ℚ) : ℚ × ℚ :=
  let n : ℚ := xs.length
  let sx := xs.sum
  let sy := ys.sum
  let sxx := (xs.map (fun x => x * x)).sum
  let sxy := ((xs.zip ys).map (fun p => p.1 * p.2)).sum
  let den := n * sxx - sx * sx
  if den = 0 then (0, sy / n)
  else
    let slope := (n * sxy - sx * sy) / den
    (slope, (sy - slope * sx) / n)

/-- Python `LinearPredictor.predict(glucose_values, timestamps=None, interval_min=5)`
(lines 38-106), fixed-interval branch (no timestamps supplied). Returns
`(predictions, slope, intercept)`. -/
def LinearPredictor.predict (lp : LinearPredictor)
    (glucose_values : List ℚ) (interval_min : ℚ := 5) : List ℚ × ℚ × ℚ :=
  if glucose_values.length < 2 then
    let last_val : ℚ := (glucose_values.getLast?).getD 100
    (lp.prediction_horizons.map (fun _ => last_val), 0, last_val)
  else
    let recent := glucose_values.drop (glucose_values.length - lp.history_points)
    let n := recent.length
    let xs : List ℚ := (List.range n).map (fun i => (i : ℚ) * interval_min)
    let fit := polyfit1 xs recent
    let slope := fit.1
    let intercept := fit.2
    let current_x : ℚ := (xs.getLast?).getD 0
    (lp.prediction_horizons.map
      (fun horizon_min => clampBG (slope * (current_x + horizon_min) + intercept)),
     slope, intercept)

/-- Python `LinearPredictor.predict_with_trend(current_bg, trend)` (lines 108-157):
maps the trend arrow to a rate (`trend_rates.get(int(trend), 0.0)`) and
extrapolates with clamping. -/
def LinearPredictor.predict_with_trend (lp : LinearPredictor)
    (current_bg : ℚ) (trend : ℤ) : List ℚ :=
  let rate : ℚ :=
    if trend = -3 then -3
    else if trend = -2 then -2
    else if trend = -1 then -1
    else if trend = 0 then 0
    else if trend = 1 then 1
    else if trend = 2 then 2
    else if trend = 3 then 3
    else 0
  lp.prediction_horizons.map (fun horizon_min => clampBG (current_bg + rate * horizon_min))

/-!  Source: `ISFInferenceService` (`ml/inference/isf_inference.py`). -/

/-- The loading state and mutable default of `ISFInferenceService`.
`loaded` models `is_loaded` (`_loaded and model is not None`); `default_isf`
starts at `50.0` (`__init__`, line 52). -/
structure ISFInferenceService where
  loaded : Bool
  default_isf : ℚ := 50

/-- A fresh `ISFInferenceService()` whose load attempt produced `loaded`. -/
def ISFInferenceService.mk0 (loaded : Bool) : ISFInferenceService :=
  { loaded := loaded, default_isf := 50 }

/-- Python `ISFInferenceService.predict(feature_sequence)` (lines 141-195).
`modelCall` is the outcome of the body of the `try` block (the scaled
forward pass of the torch model): `.ok v` is the raw model output
`output[0, 0]`, `.error _` any exception, caught and converted to the
default.  The result is clamped into `[10, 150]`. -/
def ISFInferenceService.predict (svc : ISFInferenceService)
    (modelCall : Except Unit ℚ) : Option ℚ :=
  if ¬ svc.loaded then some svc.default_isf
  else
    match modelCall with
    | .error _ => some svc.default_isf
    | .ok v => some (max 10 (min 150 v))

/-- Python `ISFInferenceService.set_default_isf(value)` (lines 206-213). -/
def ISFInferenceService.set_default_isf (svc : ISFInferenceService)
    (value : ℚ) : ISFInferenceService :=
  { svc with default_isf := max 10 (min 150 value) }

/-!  Source: `ml/feature_engineering.py`.

A Python `datetime` is modelled by its observable fields: absolute seconds
plus the calendar accessors the feature code reads (`minute`, `hour`,
`dayofweek`, `month`, `dayofyear`). -/

structure Timestamp where
  secs : ℚ
  minute : ℕ := 0
  hour : ℕ := 0
  dow : ℕ := 0
  month : ℕ := 1
  doy : ℕ := 1
  deriving DecidableEq

/-- A glucose reading dict with the fields the feature code reads. -/
structure Reading where
  ts : Timestamp
  value : ℚ
  trend : ℤ := 0
  deriving DecidableEq

/-- The `type` tag of a treatment dict (`'insulin'`, `'carbs'`, or other). -/
inductive TType
  | insulin
  | carbs
  | other
  deriving DecidableEq

/-- A treatment dict; missing numeric fields default to 0 (`treat.get(k, 0)`). -/
structure TreatmentDict where
  ts : Timestamp
  ttype : TType := TType.other
  insulin : ℚ := 0
  carbs : ℚ := 0
  protein : ℚ := 0
  fat : ℚ := 0
  deriving DecidableEq

/-- A row of the DataFrame produced by `prepare_realtime_features`. -/
structure PrepRow where
  ts : Timestamp
  value : ℚ
  trend : ℤ
  insulin : ℚ
  carbs : ℚ
  protein : ℚ
  fat : ℚ
  iob : ℚ
  deriving DecidableEq

instance : Inhabited PrepRow :=
  ⟨{ ts := { secs := 0 }, value := 0, trend := 0, insulin := 0, carbs := 0,
     protein := 0, fat := 0, iob := 0 }⟩

/-- Replace the element at index `i` (out-of-range: unchanged). -/
def listModify {α : Type} (l : List α) (i : ℕ) (f : α → α) : List α :=
  match l, i with
  | [], _ => []
  | x :: xs, 0 => f x :: xs
  | x :: xs, n + 1 => x :: listModify xs n f

/-- Index of the first minimal element (pandas `Series.idxmin` on a
0-based range index). -/
def idxminAux : List ℚ → ℕ → ℕ → ℚ → ℕ
  | [], _, bi, _ => bi
  | x :: xs, i, bi, bv =>
    if x < bv then idxminAux xs (i + 1) i x else idxminAux xs (i + 1) bi bv

def idxmin : List ℚ → ℕ
  | [] => 0
  | x :: xs => idxminAux xs 1 0 x

/-- One iteration of the treatment-merging loop in
`prepare_realtime_features` (lines 286-299): add the treatment's payload
to the glucose row whose timestamp is closest. -/
def applyTreatment (rows : List PrepRow) (tr : TreatmentDict) : List PrepRow :=
  let closest := idxmin (rows.map (fun r => |r.ts.secs - tr.ts.secs|))
  if tr.ttype = TType.insulin ∨ 0 < tr.insulin then
    listModify rows closest (fun r => { r with insulin := r.insulin + tr.insulin })
  else if tr.ttype = TType.carbs ∨ 0 < tr.carbs then
    listModify rows closest (fun r =>
      { r with carbs := r.carbs + tr.carbs, protein := r.protein + tr.protein,
               fat := r.fat + tr.fat })
  else rows

/-- Python `prepare_realtime_features(glucose_readings, treatments, iob_value)`
(lines 242-305): `none` iff there are no readings; otherwise builds rows
with zero-initialised treatment columns, merges each treatment onto the
closest reading, and finally sets every row's `iob` to `iob_value`. -/
def prepare_realtime_features (glucose_readings : List Reading)
    (treatments : List TreatmentDict) (iob_value : ℚ) : Option (List PrepRow) :=
  if glucose_readings.isEmpty then none
  else
    let base : List PrepRow := glucose_readings.map (fun r =>
      { ts := r.ts, value := r.value, trend := r.trend,
        insulin := 0, carbs := 0, protein := 0, fat := 0, iob := 0 })
    let merged := treatments.foldl applyTreatment base
    some (merged.map (fun p => { p with iob := iob_value }))

/-- Python `calculate_iob_for_features(insulin_series, duration_min, sampling_min)`
(lines 44-82): simplified linear decay.  Written per output position: the
bolus at `idx` contributes `amount * max(0, 1 - i/decay_steps)` to
positions `idx + i`, `0 ≤ i < decay_steps`. -/
def calculate_iob_for_features (insulin_series : List ℚ)
    (duration_min : ℕ := 180) (sampling_min : ℕ := 5) : List ℚ :=
  let decay_steps := duration_min / sampling_min
  let n := insulin_series.length
  if decay_steps = 0 then List.replicate n 0
  else
    (List.range n).map (fun j =>
      ((List.range n).map (fun idx =>
        let amt := insulin_series.getD idx 0
        if 0 < amt ∧ idx ≤ j ∧ j - idx < decay_steps then
          amt * max 0 (1 - ((j - idx : ℕ) : ℚ) / (decay_steps : ℚ))
        else 0)).sum)

/-- The trailing window `values[max(0, i-w+1) .. i]` that pandas
`rolling(window=w, min_periods=1)` aggregates at position `i`. -/
def windowAt (values : List ℚ) (w i : ℕ) : List ℚ :=
  (values.take (i + 1)).drop (i + 1 - w)

/-- Arithmetic mean (of a nonempty window). -/
def listMean (l : List ℚ) : ℚ := l.sum / l.length

/-- pandas sample standard deviation (`ddof=1`) with the source's
`.fillna(0)` for a single-element window. -/
noncomputable def sampleStd (l : List ℚ) : ℝ :=
  if l.length ≤ 1 then 0
  else
    let m := listMean l
    Real.sqrt ((l.map (fun x => ((x - m : ℚ) : ℝ) ^ 2)).sum / ((l.length : ℝ) - 1))

/-- Python `sincos(series, period)` (lines 38-41), sine component. -/
noncomputable def sincosSin (x period : ℚ) : ℝ :=
  Real.sin (2 * Real.pi * (x : ℝ) / (period : ℝ))

/-- Python `sincos(series, period)` (lines 38-41), cosine component. -/
noncomputable def sincosCos (x period : ℚ) : ℝ :=
  Real.cos (2 * Real.pi * (x : ℝ) / (period : ℝ))

/-- Python `np.polyfit(np.arange(len(y)), y, 2)` in `_safe_polyfit` (lines
194-203): the unique degree-2 least-squares coefficients, highest degree
first `(a2, a1, a0)`, via Cramer's rule on the normal equations. -/
def polyfit2 (y : List ℚ) : ℚ × ℚ × ℚ :=
  let m := y.length
  let xs : List ℚ := (List.range m).map (fun i => (i : ℚ))
  let s0 : ℚ := m
  let s1 := xs.sum
  let s2 := (xs.map (fun x => x ^ 2)).sum
  let s3 := (xs.map (fun x => x ^ 3)).sum
  let s4 := (xs.map (fun x => x ^ 4)).sum
  let t0 := y.sum
  let t1 := ((xs.zip y).map (fun p => p.1 * p.2)).sum
  let t2 := ((xs.zip y).map (fun p => p.1 ^ 2 * p.2)).sum
  let det := s4 * (s2 * s0 - s1 * s1) - s3 * (s3 * s0 - s1 * s2) + s2 * (s3 * s1 - s2 * s2)
  let a2 := (t2 * (s2 * s0 - s1 * s1) - s3 * (t1 * s0 - s1 * t0) + s2 * (t1 * s1 - s2 * t0)) / det
  let a1 := (s4 * (t1 * s0 - s1 * t0) - t2 * (s3 * s0 - s1 * s2) + s2 * (s3 * t0 - s2 * t1)) / det
  let a0 := (s4 * (s2 * t0 - s1 * t1) - s3 * (s3 * t0 - s1 * t2) + t2 * (s3 * s1 - s2 * s2)) / det
  (a2, a1, a0)

/-- The rolling-`apply` poly series before filling: `rolling(w,
min_periods=3)` emits a missing value while fewer than 3 observations are
in the window. -/
def polySeriesOpt (values : List ℚ) (w : ℕ) : List (Option (ℚ × ℚ × ℚ)) :=
  (List.range values.length).map (fun i =>
    if 3 ≤ i + 1 then some (polyfit2 (windowAt values w i)) else none)

/-- pandas `ffill`: propagate the last present value forward. -/
def ffill {α : Type} (l : List (Option α)) : List (Option α) :=
  (l.foldl (fun (acc : List (Option α) × Option α) x =>
    match x with
    | some v => (acc.1 ++ [some v], some v)
    | none => (acc.1 ++ [acc.2], acc.2)) ([], none)).1

/-- pandas `bfill`: propagate the next present value backward. -/
def bfill {α : Type} (l : List (Option α)) : List (Option α) :=
  (ffill l.reverse).reverse

/-- pandas `.fillna(0)` after the fills. -/
def fillZero (l : List (Option ℚ)) : List ℚ := l.map (fun x => x.getD 0)

/-- The three `poly{k}` columns of `engineer_features` (lines 166-188):
window `min(POLY_WINDOW_SIZE, len(df))`; when it cannot fit a degree-2
polynomial all three columns are zero. -/
def polyColumns (values : List ℚ) : List ℚ × List ℚ × List ℚ :=
  let n := values.length
  let w := min 24 n
  if 3 ≤ w then
    let s := polySeriesOpt values w
    let pickCol := fun (pick : ℚ × ℚ × ℚ → ℚ) =>
      fillZero (bfill (ffill (s.map (fun o => o.map pick))))
    (pickCol (fun c => c.1), pickCol (fun c => c.2.1), pickCol (fun c => c.2.2))
  else (List.replicate n 0, List.replicate n 0, List.replicate n 0)

/-- A row of the engineered DataFrame, restricted to the 26 columns of
`BG_FEATURE_COLUMNS` (the model-facing feature set). -/
structure EngRow where
  value : ℚ
  trend : ℤ
  carbs : ℚ
  protein : ℚ
  fat : ℚ
  iob : ℚ
  roll30_mean : ℚ
  roll30_std : ℝ
  roll90_mean : ℚ
  roll90_std : ℝ
  secs_since_start : ℚ
  min5_sin : ℝ
  min5_cos : ℝ
  min15_sin : ℝ
  min15_cos : ℝ
  hour_sin : ℝ
  hour_cos : ℝ
  dow_sin : ℝ
  dow_cos : ℝ
  mon_sin : ℝ
  mon_cos : ℝ
  doy_sin : ℝ
  doy_cos : ℝ
  poly0 : ℚ
  poly1 : ℚ
  poly2 : ℚ

/-- Python `engineer_features(df_in)` (lines 85-191) on well-typed rows: returns
`[]` for empty input, otherwise sorts by timestamp, recomputes the linear
`iob` column from the insulin series, and derives all time/rolling/poly
features per row. -/
noncomputable def engineer_features (df_in : List PrepRow) : List EngRow :=
  if df_in.isEmpty then []
  else
    let df := df_in.mergeSort (fun a b => decide (a.ts.secs ≤ b.ts.secs))
    let n := df.length
    let values := df.map (fun r => r.value)
    let iobSeries := calculate_iob_for_features (df.map (fun r => r.insulin)) 180 5
    let polys := polyColumns values
    let start_secs := (df.head?.map (fun r => r.ts.secs)).getD 0
    (List.range n).map (fun i =>
      let r := df.getD i default
      let e : EngRow :=
      { value := r.value
        trend := r.trend
        carbs := r.carbs
        protein := r.protein
        fat := r.fat
        iob := iobSeries.getD i 0
        roll30_mean := listMean (windowAt values 6 i)
        roll30_std := sampleStd (windowAt values 6 i)
        roll90_mean := listMean (windowAt values 18 i)
        roll90_std := sampleStd (windowAt values 18 i)
        secs_since_start := r.ts.secs - start_secs
        min5_sin := sincosSin (r.ts.minute % 5 : ℕ) 5
        min5_cos := sincosCos (r.ts.minute % 5 : ℕ) 5
        min15_sin := sincosSin (r.ts.minute % 15 : ℕ) 15
        min15_cos := sincosCos (r.ts.minute % 15 : ℕ) 15
        hour_sin := sincosSin (r.ts.hour : ℕ) 24
        hour_cos := sincosCos (r.ts.hour : ℕ) 24
        dow_sin := sincosSin (r.ts.dow : ℕ) 7
        dow_cos := sincosCos (r.ts.dow : ℕ) 7
        mon_sin := sincosSin (r.ts.month : ℕ) 12
        mon_cos := sincosCos (r.ts.month : ℕ) 12
        doy_sin := sincosSin (r.ts.doy : ℕ) 365
        doy_cos := sincosCos (r.ts.doy : ℕ) 365
        poly0 := polys.1.getD i 0
        poly1 := polys.2.1.getD i 0
        poly2 := polys.2.2.getD i 0 }
      e)

/-- The row's values in `BG_FEATURE_COLUMNS` order (26 columns). -/
noncomputable def featureList (e : EngRow) : List ℝ :=
  [(e.value : ℝ), (e.trend : ℝ), (e.carbs : ℝ), (e.protein : ℝ), (e.fat : ℝ),
   (e.iob : ℝ), (e.roll30_mean : ℝ), e.roll30_std, (e.roll90_mean : ℝ),
   e.roll90_std, (e.secs_since_start : ℝ), e.min5_sin, e.min5_cos,
   e.min15_sin, e.min15_cos, e.hour_sin, e.hour_cos, e.dow_sin, e.dow_cos,
   e.mon_sin, e.mon_cos, e.doy_sin, e.doy_cos,
   (e.poly0 : ℝ), (e.poly1 : ℝ), (e.poly2 : ℝ)]

/-- Python `SEQ_LENGTH` (line 22). -/
def SEQ_LENGTH : ℕ := 24

/-- Python `extract_feature_sequence(df, feature_columns, seq_length)` (lines
206-239): `none` when fewer than `seq_length` rows; otherwise the last
`seq_length` rows projected onto the 26 feature columns.  (The source's
missing-column check cannot fire on `EngRow`, and the leading numpy batch
dimension of size 1 is dropped.) -/
noncomputable def extract_feature_sequence (df : List EngRow)
    (seq_length : ℕ := SEQ_LENGTH) : Option (List (List ℝ)) :=
  if df.length < seq_length then none
  else some ((df.drop (df.length - seq_length)).map featureList)

/-- The mutable buffers of `FeatureEngineer` (lines 308-393). -/
structure FeatureEngineer where
  history_min : ℕ := 180
  sampling_min : ℕ := 5
  glucoseBuffer : List Reading := []
  treatmentBuffer : List TreatmentDict := []

/-- Python `self.max_readings = history_min // sampling_min`. -/
def FeatureEngineer.max_readings (fe : FeatureEngineer) : ℕ :=
  fe.history_min / fe.sampling_min

/-- Python `FeatureEngineer.add_glucose_reading(reading)` (lines 328-334):
append and trim to the last `max_readings` entries. -/
def FeatureEngineer.add_glucose_reading (fe : FeatureEngineer) (r : Reading) :
    FeatureEngineer :=
  let b := fe.glucoseBuffer ++ [r]
  { fe with glucoseBuffer :=
      if fe.max_readings < b.length then b.drop (b.length - fe.max_readings) else b }

/-- Python `FeatureEngineer.add_treatment(treatment)` (lines 336-345): append,
then drop treatments older than the history window relative to the wall
clock `now` (seconds). -/
def FeatureEngineer.add_treatment (fe : FeatureEngineer) (now : ℚ)
    (tr : TreatmentDict) : FeatureEngineer :=
  let cutoff : ℚ := now - 60 * fe.history_min
  { fe with treatmentBuffer :=
      (fe.treatmentBuffer ++ [tr]).filter (fun t => decide (cutoff < t.ts.secs)) }

/-- Python `FeatureEngineer.clear()` (lines 388-391). -/
def FeatureEngineer.clear (fe : FeatureEngineer) : FeatureEngineer :=
  { fe with glucoseBuffer := [], treatmentBuffer := [] }

/-- Python `FeatureEngineer.get_feature_sequence(iob_value, seq_length)` (lines
347-386). -/
noncomputable def FeatureEngineer.get_feature_sequence (fe : FeatureEngineer)
    (iob_value : ℚ) (seq_length : ℕ := SEQ_LENGTH) : Option (List (List ℝ)) :=
  if fe.glucoseBuffer.length < seq_length then none
  else
    match prepare_realtime_features fe.glucoseBuffer fe.treatmentBuffer iob_value with
    | none => none
    | some df =>
      let df2 := engineer_features df
      if df2.isEmpty then none
      else extract_feature_sequence df2 seq_length

/-!  Source: `PredictionService.predict` / `_get_isf`
(`services/prediction_service.py`, lines 136-236).

The torch model calls are the only genuinely external steps; they appear
as oracle arguments: `bgModelCall` is `self._bg_service.predict`
(returns `None` on any internal error — it catches its own exceptions),
`isfModelCall` the raw ISF net forward pass.  `seqExc` / `isfExc` model
"some step of the corresponding `try` block raised". -/

structure PredictionResult where
  linear : List ℚ
  lstm : Option (List ℚ) := none
  horizons_min : List ℕ := [5, 10, 15]
  current_bg : ℚ
  trend : ℤ
  isf : ℚ
  method : String := "linear"

structure PredictionService where
  lstm_available : Bool
  isf_service : Option ISFInferenceService := none
  feature_engineer : FeatureEngineer := {}
  linear_predictor : LinearPredictor := {}

/-- Python `PredictionService._get_isf(iob)` (lines 215-236). -/
noncomputable def PredictionService.get_isf (ps : PredictionService) (iob : ℚ)
    (isfExc : Bool) (isfModelCall : Except Unit ℚ) : ℚ :=
  let fallback : ℚ :=
    match ps.isf_service with
    | some svc => svc.default_isf
    | none => 50
  match ps.isf_service with
  | some svc =>
    if svc.loaded ∧ ¬ isfExc then
      match ps.feature_engineer.get_feature_sequence iob SEQ_LENGTH with
      | some _ =>
        match svc.predict isfModelCall with
        | some v => v
        | none => fallback
      | none => fallback
    else fallback
  | none => fallback

/-- The buffer rebuild inside `predict`'s `try` block (lines 180-188):
clear the feature engineer, re-add every history reading, then every
treatment. -/
def rebuildBuffers (fe0 : FeatureEngineer) (h : List Reading)
    (treatments : Option (List TreatmentDict)) (now : ℚ) : FeatureEngineer :=
  let fe1 := h.foldl FeatureEngineer.add_glucose_reading fe0.clear
  match treatments with
  | some ts => ts.foldl (fun (fe : FeatureEngineer) tr => fe.add_treatment now tr) fe1
  | none => fe1

/-- The LSTM branch of `predict` (lines 174-202): the value of
`lstm_preds` at the end of the `try`/`except`. -/
noncomputable def predictLstmPreds (ps : PredictionService) (iob : ℚ)
    (glucose_history : Option (List Reading))
    (treatments : Option (List TreatmentDict))
    (now : ℚ) (seqExc : Bool)
    (bgModelCall : List (List ℝ) → Option (List ℚ × List ℚ)) :
    Option (List ℚ) :=
  match glucose_history with
  | some h =>
    if ps.lstm_available ∧ ¬ h.isEmpty ∧ ¬ seqExc then
      match (rebuildBuffers ps.feature_engineer h treatments now).get_feature_sequence
          iob SEQ_LENGTH with
      | some s =>
        match bgModelCall s with
        | some result => some result.1
        | none => none
      | none => none
    else none
  | none => none

/-- Python `PredictionService.predict(current_bg, trend, iob, glucose_history,
treatments)` (lines 136-213). -/
noncomputable def PredictionService.predict (ps : PredictionService)
    (current_bg : ℚ) (trend : ℤ) (iob : ℚ)
    (glucose_history : Option (List Reading))
    (treatments : Option (List TreatmentDict))
    (now : ℚ) (seqExc : Bool)
    (bgModelCall : List (List ℝ) → Option (List ℚ × List ℚ))
    (isfExc : Bool) (isfModelCall : Except Unit ℚ) : PredictionResult :=
  let linear_preds : List ℚ :=
    match glucose_history with
    | some h =>
      if 2 ≤ h.length then
        (ps.linear_predictor.predict (h.map (fun r => r.value)) 5).1
      else ps.linear_predictor.predict_with_trend current_bg trend
    | none => ps.linear_predictor.predict_with_trend current_bg trend
  let isf := ps.get_isf iob isfExc isfModelCall
  let lstm_preds : Option (List ℚ) :=
    predictLstmPreds ps iob glucose_history treatments now seqExc bgModelCall
  { linear := linear_preds
    lstm := lstm_preds
    horizons_min := [5, 10, 15]
    current_bg := current_bg
    trend := trend
    isf := isf
    method :=
      match lstm_preds with
      | some p => if p.isEmpty then "linear" else "lstm"
      | none => "linear" }

/-!  Source: `AccuracyTracker` (`services/accuracy_service.py`).

Timestamps are again seconds; the `lstm_5/10/15` fields are grouped into
one `Option` triple because `record_prediction` (lines 90-99) fills them
all-or-none from the `lstm` argument. -/

structure PredictionRecord where
  timestamp : ℚ
  current_bg : ℚ
  linear5 : ℚ
  linear10 : ℚ
  linear15 : ℚ
  lstm : Option (ℚ × ℚ × ℚ) := none
  actual5 : Option ℚ := none
  actual10 : Option ℚ := none
  actual15 : Option ℚ := none
  evaluated : Bool := false
  deriving DecidableEq

structure AccuracyTracker where
  max_records : ℕ := 1000
  records : List PredictionRecord := []
  linearErrors : List (ℚ × ℚ × ℚ) := []
  lstmErrors : List (ℚ × ℚ × ℚ) := []
  linear_wins : ℕ := 0
  lstm_wins : ℕ := 0
  deriving DecidableEq

/-- The `max_errors = 500` trim at the end of `_evaluate_record`
(lines 158-163): keep the most recent 500 error triples. -/
def trimErrors (l : List (ℚ × ℚ × ℚ)) : List (ℚ × ℚ × ℚ) :=
  if 500 < l.length then l.drop (l.length - 500) else l

/-- Python `AccuracyTracker.record_prediction(current_bg, linear, lstm)` (lines
76-100); the `deque(maxlen=max_records)` evicts oldest on overflow. -/
def record_prediction (tr : AccuracyTracker) (now current_bg : ℚ)
    (linear : ℚ × ℚ × ℚ) (lstm : Option (ℚ × ℚ × ℚ)) : AccuracyTracker :=
  let r : PredictionRecord :=
    { timestamp := now, current_bg := current_bg, linear5 := linear.1,
      linear10 := linear.2.1, linear15 := linear.2.2, lstm := lstm }
  let rs := tr.records ++ [r]
  { tr with records :=
      if tr.max_records < rs.length then rs.drop (rs.length - tr.max_records) else rs }

/-- Python `AccuracyTracker._evaluate_record(record)` (lines 133-163), given the
three filled actuals: append the error triples, settle the per-record
winner (a tie goes to linear), trim both pools. -/
def evaluateRecord (tr : AccuracyTracker) (r : PredictionRecord)
    (a5 a10 a15 : ℚ) : AccuracyTracker :=
  let le5 := |r.linear5 - a5|
  let le10 := |r.linear10 - a10|
  let le15 := |r.linear15 - a15|
  let linearErrors1 := tr.linearErrors ++ [(le5, le10, le15)]
  let linear_avg := (le5 + le10 + le15) / 3
  let tr1 :=
    match r.lstm with
    | some l =>
      let se5 := |l.1 - a5|
      let se10 := |l.2.1 - a10|
      let se15 := |l.2.2 - a15|
      let lstm_avg := (se5 + se10 + se15) / 3
      if lstm_avg < linear_avg then
        { tr with lstmErrors := tr.lstmErrors ++ [(se5, se10, se15)],
                  lstm_wins := tr.lstm_wins + 1 }
      else
        { tr with lstmErrors := tr.lstmErrors ++ [(se5, se10, se15)],
                  linear_wins := tr.linear_wins + 1 }
    | none => tr
  { tr1 with linearErrors := trimErrors linearErrors1,
             lstmErrors := trimErrors tr1.lstmErrors }

/-- The slot-filling `if`/`elif` chain of `record_actual` (lines
116-124): match the incoming actual to the 5/10/15-minute tolerance band
whose slot is still empty. -/
def fillSlots (now value : ℚ) (r : PredictionRecord) : PredictionRecord :=
  if 4 ≤ (now - r.timestamp) / 60 ∧ (now - r.timestamp) / 60 ≤ 6 ∧
      r.actual5 = none then
    { r with actual5 := some value }
  else if 9 ≤ (now - r.timestamp) / 60 ∧ (now - r.timestamp) / 60 ≤ 11 ∧
      r.actual10 = none then
    { r with actual10 := some value }
  else if 14 ≤ (now - r.timestamp) / 60 ∧ (now - r.timestamp) / 60 ≤ 16 ∧
      r.actual15 = none then
    { r with actual15 := some value }
  else r

/-- The body of the `for record in self._predictions` loop of
`record_actual` (lines 112-131) for one record; `acc.records` holds the
already-processed prefix.  When all three slots are filled the record is
marked evaluated and `_evaluate_record` runs. -/
def recordActualStep (now value : ℚ) (acc : AccuracyTracker)
    (r : PredictionRecord) : AccuracyTracker :=
  if r.evaluated then { acc with records := acc.records ++ [r] }
  else
    match (fillSlots now value r).actual5, (fillSlots now value r).actual10,
        (fillSlots now value r).actual15 with
    | some a5, some a10, some a15 =>
      { evaluateRecord acc { fillSlots now value r with evaluated := true }
          a5 a10 a15 with
        records :=
          (evaluateRecord acc { fillSlots now value r with evaluated := true }
            a5 a10 a15).records ++
          [{ fillSlots now value r with evaluated := true }] }
    | _, _, _ =>
      { acc with records := acc.records ++ [fillSlots now value r] }

/-- Python `AccuracyTracker.record_actual(timestamp, value)` (lines 102-131). -/
def record_actual (tr : AccuracyTracker) (now value : ℚ) : AccuracyTracker :=
  tr.records.foldl (recordActualStep now value) { tr with records := [] }

/-- Python `AccuracyMetrics` (lines 33-45); defaults are the all-zero metrics
returned for an empty error pool. -/
structure AccuracyMetrics where
  mae_5 : ℚ := 0
  mae_10 : ℚ := 0
  mae_15 : ℚ := 0
  mae_overall : ℚ := 0
  rmse_5 : ℝ := 0
  rmse_10 : ℝ := 0
  rmse_15 : ℝ := 0
  rmse_overall : ℝ := 0
  sample_count : ℕ := 0
  within_10_pct : ℚ := 0
  within_20_pct : ℚ := 0

/-- Python `AccuracyTracker._calculate_metrics(errors)` (lines 196-237). -/
noncomputable def calculate_metrics (errors : List (ℚ × ℚ × ℚ)) :
    AccuracyMetrics :=
  if errors.isEmpty then {}
  else
    let n := errors.length
    let e5 := errors.map (fun e => e.1)
    let e10 := errors.map (fun e => e.2.1)
    let e15 := errors.map (fun e => e.2.2)
    let allErrors := e5 ++ e10 ++ e15
    let rmse := fun (l : List ℚ) =>
      Real.sqrt ((l.map (fun e => ((e : ℝ)) ^ 2)).sum / (l.length : ℝ))
    let withinPct := fun (bound : ℚ) =>
      (((allErrors.filter (fun e => decide (e ≤ bound))).length : ℚ) /
        (allErrors.length : ℚ)) * 100
    { mae_5 := pyRound1 (listMean e5)
      mae_10 := pyRound1 (listMean e10)
      mae_15 := pyRound1 (listMean e15)
      mae_overall := pyRound1 (listMean allErrors)
      rmse_5 := pyRound1 (rmse e5)
      rmse_10 := pyRound1 (rmse e10)
      rmse_15 := pyRound1 (rmse e15)
      rmse_overall := pyRound1 (rmse allErrors)
      sample_count := n
      within_10_pct := pyRound1 (withinPct 10)
      within_20_pct := pyRound1 (withinPct 20) }

/-- Python `AccuracyComparison` (lines 48-57); the wall-clock `timestamp` field
is omitted. -/
structure AccuracyComparison where
  linear : AccuracyMetrics
  lstm : Option AccuracyMetrics := none
  winner : String := "linear"
  linear_wins : ℕ := 0
  lstm_wins : ℕ := 0
  total_comparisons : ℕ := 0
  period_hours : ℕ := 24

/-- Python `AccuracyTracker.get_accuracy(hours)` (lines 165-194). -/
noncomputable def get_accuracy (tr : AccuracyTracker) (hours : ℕ := 24) :
    AccuracyComparison :=
  let linear_metrics := calculate_metrics tr.linearErrors
  let lstm_metrics : Option AccuracyMetrics :=
    if tr.lstmErrors.isEmpty then none else some (calculate_metrics tr.lstmErrors)
  let winner : String :=
    match lstm_metrics with
    | some m => if m.mae_overall < linear_metrics.mae_overall then "lstm" else "linear"
    | none => "linear"
  { linear := linear_metrics
    lstm := lstm_metrics
    winner := winner
    linear_wins := tr.linear_wins
    lstm_wins := tr.lstm_wins
    total_comparisons := tr.linear_wins + tr.lstm_wins
    period_hours := hours }

/-- All three horizon actual slots of a record are filled. -/
def allFilled (r : PredictionRecord) : Prop :=
  r.actual5.isSome ∧ r.actual10.isSome ∧ r.actual15.isSome

instance (r : PredictionRecord) : Decidable (allFilled r) := by
  unfold allFilled; infer_instance

/-- An actual observation at time `now` misses all three tolerance bands
of a record created at `rts` (both in seconds). -/
def outOfBands (rts now : ℚ) : Prop :=
  let d := (now - rts) / 60
  ¬ (4 ≤ d ∧ d ≤ 6) ∧ ¬ (9 ≤ d ∧ d ≤ 11) ∧ ¬ (14 ≤ d ∧ d ≤ 16)

instance (rts now : ℚ) : Decidable (outOfBands rts now) := by
  unfold outOfBands; infer_instance

/-!  Helper lemmas about Python rounding. -/

theorem roundEven_nonneg {α : Type} [LinearOrderedField α] [FloorRing α]
    {x : α} (hx : 0 ≤ x) : 0 ≤ roundEven x := by
  have hf : (0 : ℤ) ≤ ⌊x⌋ := Int.floor_nonneg.mpr hx
  unfold roundEven
  split_ifs <;> omega

theorem roundEven_nonpos {α : Type} [LinearOrderedField α] [FloorRing α]
    {x : α} (hx : x ≤ 0) : roundEven x ≤ 0 := by
  have hfx : (⌊x⌋ : α) ≤ x := Int.floor_le x
  have hf : ⌊x⌋ ≤ 0 := by
    have : (⌊x⌋ : α) ≤ 0 := le_trans hfx hx
    exact_mod_cast this
  unfold roundEven
  split_ifs with h1 h2 h3
  · exact hf
  · -- frac > 1/2 : the floor is at most -1
    have hneg : (⌊x⌋ : α) < 0 := by
      push_neg at h1
      nlinarith
    have : ⌊x⌋ < 0 := by exact_mod_cast hneg
    omega
  · -- tie with even floor
    exact hf
  · -- tie with odd floor : the floor is at most -1
    push_neg at h1 h2
    have htie : x - (⌊x⌋ : α) = 1/2 := le_antisymm h2 h1
    have hneg : (⌊x⌋ : α) < 0 := by nlinarith
    have : ⌊x⌋ < 0 := by exact_mod_cast hneg
    omega

theorem roundEven_le_floor_add_one {α : Type} [LinearOrderedField α]
    [FloorRing α] (x : α) : roundEven x ≤ ⌊x⌋ + 1 := by
  unfold roundEven
  split_ifs <;> omega

theorem floor_le_roundEven {α : Type} [LinearOrderedField α] [FloorRing α]
    (x : α) : ⌊x⌋ ≤ roundEven x := by
  unfold roundEven
  split_ifs <;> omega

theorem roundEven_le_roundEven {α : Type} [LinearOrderedField α] [FloorRing α]
    {a b : α} (hab : a ≤ b) : roundEven a ≤ roundEven b := by
  rcases lt_or_ge ⌊a⌋ ⌊b⌋ with h | h
  · have h1 := roundEven_le_floor_add_one a
    have h2 := floor_le_roundEven b
    omega
  · have hEq : ⌊a⌋ = ⌊b⌋ := le_antisymm (Int.floor_le_floor hab) h
    unfold roundEven
    rw [hEq]
    have hfr : a - (⌊b⌋ : α) ≤ b - (⌊b⌋ : α) := by linarith
    split_ifs <;> first | omega | linarith

theorem pyRound2_zero {α : Type} [LinearOrderedField α] [FloorRing α] :
    pyRound2 (0 : α) = 0 := by
  unfold pyRound2 roundEven
  norm_num

theorem pyRound1_zero {α : Type} [LinearOrderedField α] [FloorRing α] :
    pyRound1 (0 : α) = 0 := by
  unfold pyRound1 roundEven
  norm_num

theorem pyRound2_nonneg {α : Type} [LinearOrderedField α] [FloorRing α]
    {x : α} (hx : 0 ≤ x) : 0 ≤ pyRound2 x := by
  unfold pyRound2
  have h : (0 : ℤ) ≤ roundEven (x * 100) := roundEven_nonneg (by positivity)
  have h2 : (0 : α) ≤ (roundEven (x * 100) : α) := by exact_mod_cast h
  positivity

theorem pyRound2_nonpos {α : Type} [LinearOrderedField α] [FloorRing α]
    {x : α} (hx : x ≤ 0) : pyRound2 x ≤ 0 := by
  unfold pyRound2
  have h : roundEven (x * 100) ≤ 0 := roundEven_nonpos (by nlinarith)
  have h2 : (roundEven (x * 100) : α) ≤ 0 := by exact_mod_cast h
  have : (0 : α) < 100 := by norm_num
  exact div_nonpos_of_nonpos_of_nonneg h2 (by norm_num)

theorem pyRound2_le_pyRound2 {α : Type} [LinearOrderedField α] [FloorRing α]
    {a b : α} (hab : a ≤ b) : pyRound2 a ≤ pyRound2 b := by
  unfold pyRound2
  have h : roundEven (a * 100) ≤ roundEven (b * 100) :=
    roundEven_le_roundEven (by nlinarith)
  have h2 : ((roundEven (a * 100) : ℤ) : α) ≤ ((roundEven (b * 100) : ℤ) : α) := by
    exact_mod_cast h
  have h100 : (0 : α) ≤ 100 := by norm_num
  exact div_le_div_of_nonneg_right h2 h100

theorem pyRound1_nonneg {α : Type} [LinearOrderedField α] [FloorRing α]
    {x : α} (hx : 0 ≤ x) : 0 ≤ pyRound1 x := by
  unfold pyRound1
  have h : (0 : ℤ) ≤ roundEven (x * 10) := roundEven_nonneg (by positivity)
  have h2 : (0 : α) ≤ (roundEven (x * 10) : α) := by exact_mod_cast h
  positivity

/-- Rounding commutes with the zero floor. -/
theorem pyRound2_max_zero {α : Type} [LinearOrderedField α] [FloorRing α]
    (x : α) : pyRound2 (max 0 x) = max 0 (pyRound2 x) := by
  rcases le_or_lt 0 x with h | h
  · rw [max_eq_right h, max_eq_right (pyRound2_nonneg h)]
  · rw [max_eq_left h.le, pyRound2_zero,
      max_eq_left (pyRound2_nonpos h.le)]

/-- Claim C1 (amended): only `IOBCOBService.calculate_dose_recommendation`
rejects non-positive sensitivity, returning a zero dose and the unmodified
current BG; `PredictionService.calculate_dose_correction` has no such
guard — at `isf = 0` the division raises (`none`) instead of returning a
result. -/
theorem C1_isf_guard :
    (∀ (svc : IOBCOBService) (current_bg : ℤ) (iob cob isf : ℚ), isf ≤ 0 →
      calculate_dose_recommendation svc current_bg iob cob isf = (0, current_bg)) ∧
    (∀ (current_bg target_bg iob cob cf : ℚ),
      calculate_dose_correction current_bg target_bg 0 iob cob cf = none) := by
  constructor
  · intro svc bg iob cob isf h
    unfold calculate_dose_recommendation
    rw [if_pos h]
  · intro bg tbg iob cob cf
    unfold calculate_dose_correction
    simp

/-- Claim C1 fails as stated: with `isf = -50 ≤ 0`,
`PredictionService.calculate_dose_correction(80, 100, -50, 0, 0)` does not
reject the input; it computes and returns a positive recommended dose
(0.4 U) rather than a zero dose. -/
theorem C1_counterexample :
    (calculate_dose_correction 80 100 (-50) 0 0 4).map
      (fun r => r.recommended_dose_units) = some (2/5) ∧ ((2 : ℚ)/5) ≠ 0 := by
  constructor
  · norm_num [calculate_dose_correction, pyRound2, roundEven]
  · norm_num

theorem C1_isf_guard_witness :
    calculate_dose_recommendation {} 80 0 0 (-50) = (0, 80) ∧
    calculate_dose_correction 80 100 0 2 0 4 = none :=
  ⟨C1_isf_guard.1 {} 80 0 0 (-50) (by norm_num), C1_isf_guard.2 80 100 2 0 4⟩

/-- Claim C2: with positive sensitivity the recommended dose is
`max(0, rawCorrection)` for `rawCorrection = (effectiveBg - targetBg)/isf`,
`effectiveBg = currentBg + cob*carbFactor - iob*isf`; a negative raw
correction yields dose 0 while remaining visible in the returned output;
and the spec's concrete example (`currentBg=80, targetBg=100, isf=50,
iob=2, cob=0`) produces a negative raw correction with dose 0. -/
theorem C2_dose_floor :
    (∀ (current_bg target_bg isf iob cob cf : ℚ), 0 < isf →
      ∃ r, calculate_dose_correction current_bg target_bg isf iob cob cf = some r ∧
        r.raw_correction_units =
          pyRound2 ((current_bg + cob * cf - iob * isf - target_bg) / isf) ∧
        r.recommended_dose_units =
          pyRound2 (max 0 ((current_bg + cob * cf - iob * isf - target_bg) / isf)) ∧
        r.recommended_dose_units = max 0 r.raw_correction_units ∧
        ((current_bg + cob * cf - iob * isf - target_bg) / isf < 0 →
          r.recommended_dose_units = 0)) ∧
    (∃ r, calculate_dose_correction 80 100 50 2 0 4 = some r ∧
      r.raw_correction_units < 0 ∧ r.recommended_dose_units = 0) := by
  constructor
  · intro bg tbg isf iob cob cf hisf
    have hne : isf ≠ 0 := ne_of_gt hisf
    unfold calculate_dose_correction
    rw [if_neg hne]
    have hraw : (bg + cob * cf - iob * isf - tbg) / isf =
        (bg + cob * cf - iob * isf - tbg) / isf := rfl
    refine ⟨_, rfl, ?_, ?_, ?_, ?_⟩
    · ring_nf
    · ring_nf
    · show pyRound2 (max 0 _) = max 0 (pyRound2 _)
      exact pyRound2_max_zero _
    · intro hneg
      show pyRound2 (max 0 _) = 0
      rw [max_eq_left (by linarith), pyRound2_zero]
  · refine ⟨_, rfl, ?_, ?_⟩
    · show pyRound2 ((80 + 0 * 4 - 2 * 50 - 100) / 50 : ℚ) < 0
      norm_num [pyRound2, roundEven]
    · show pyRound2 (max 0 ((80 + 0 * 4 - 2 * 50 - 100) / 50 : ℚ)) = 0
      norm_num [pyRound2, roundEven]

theorem C2_dose_floor_witness :
    ∃ r, calculate_dose_correction 200 100 50 0 0 4 = some r ∧
      r.raw_correction_units =
        pyRound2 (((200 : ℚ) + 0 * 4 - 0 * 50 - 100) / 50) ∧
      r.recommended_dose_units =
        pyRound2 (max 0 (((200 : ℚ) + 0 * 4 - 0 * 50 - 100) / 50)) ∧
      r.recommended_dose_units = max 0 r.raw_correction_units ∧
      (((200 : ℚ) + 0 * 4 - 0 * 50 - 100) / 50 < 0 →
        r.recommended_dose_units = 0) :=
  C2_dose_floor.1 200 100 50 0 0 4 (by norm_num)

/-- A treatment passing the insulin filter has a positive insulin amount. -/
theorem insulinPositive_getD {t : Treatment} (h : insulinPositive t = true) :
    0 < t.insulin.getD 0 := by
  unfold insulinPositive at h
  cases hi : t.insulin with
  | none => rw [hi] at h; exact absurd h (by simp)
  | some v => rw [hi] at h; simp at h; simpa [hi]

/-- A treatment passing the carb filter has a positive carb amount. -/
theorem carbsPositive_getD {t : Treatment} (h : carbsPositive t = true) :
    0 < t.carbs.getD 0 := by
  unfold carbsPositive at h
  cases hi : t.carbs with
  | none => rw [hi] at h; exact absurd h (by simp)
  | some v => rw [hi] at h; simp at h; simpa [hi]

/-- IOB is a sum of non-negative decay contributions, hence non-negative. -/
theorem calculate_iob_nonneg (svc : IOBCOBService)
    (treatments : List Treatment) (t : ℚ) :
    0 ≤ calculate_iob svc treatments t := by
  unfold calculate_iob
  by_cases hv : treatments.isEmpty
  · rw [if_pos hv]
  · rw [if_neg hv]
    apply pyRound2_nonneg
    apply List.sum_nonneg
    intro x hx
    obtain ⟨tr, htr, rfl⟩ := List.mem_map.mp hx
    have hpos : insulinPositive tr = true := (List.mem_filter.mp htr).2
    split_ifs
    · apply mul_nonneg
      · exact_mod_cast (insulinPositive_getD hpos).le
      · exact Real.rpow_nonneg (by norm_num) _
    · exact le_refl 0

/-- Claim C3: the hard cutoff — once every event's elapsed time exceeds
the configured action duration, IOB is exactly zero, and likewise COB
with the carb duration. -/
theorem C3_hard_cutoff :
    (∀ (svc : IOBCOBService) (treatments : List Treatment) (t : ℚ),
      (∀ tr ∈ treatments, svc.insulin_duration_min < (t - tr.timestamp) / 60) →
      calculate_iob svc treatments t = 0) ∧
    (∀ (svc : IOBCOBService) (treatments : List Treatment) (t : ℚ),
      (∀ tr ∈ treatments, svc.carb_duration_min < (t - tr.timestamp) / 60) →
      calculate_cob svc treatments t = 0) := by
  constructor
  · intro svc treatments t hout
    unfold calculate_iob
    by_cases hv : treatments.isEmpty
    · rw [if_pos hv]
    · rw [if_neg hv]
      have hsum : ((treatments.filter insulinPositive).map (fun tr =>
          if 0 ≤ (t - tr.timestamp) / 60 ∧
              (t - tr.timestamp) / 60 ≤ svc.insulin_duration_min then
            ((tr.insulin.getD 0 : ℚ) : ℝ) *
              halfPow ((t - tr.timestamp) / 60 / svc.insulin_half_life_min)
          else 0)).sum = 0 := by
        apply List.sum_eq_zero
        intro x hx
        obtain ⟨tr, htr, rfl⟩ := List.mem_map.mp hx
        have hmem : tr ∈ treatments := (List.mem_filter.mp htr).1
        rw [if_neg]
        rintro ⟨-, h2⟩
        exact absurd h2 (not_le.mpr (hout tr hmem))
      rw [hsum, pyRound2_zero]
  · intro svc treatments t hout
    unfold calculate_cob
    by_cases hv : treatments.isEmpty
    · rw [if_pos hv]
    · rw [if_neg hv]
      have hsum : ((treatments.filter carbsPositive).map (fun tr =>
          if 0 ≤ (t - tr.timestamp) / 60 ∧
              (t - tr.timestamp) / 60 ≤ svc.carb_duration_min then
            ((tr.carbs.getD 0 : ℚ) : ℝ) *
              halfPow ((t - tr.timestamp) / 60 / svc.carb_half_life_min)
          else 0)).sum = 0 := by
        apply List.sum_eq_zero
        intro x hx
        obtain ⟨tr, htr, rfl⟩ := List.mem_map.mp hx
        have hmem : tr ∈ treatments := (List.mem_filter.mp htr).1
        rw [if_neg]
        rintro ⟨-, h2⟩
        exact absurd h2 (not_le.mpr (hout tr hmem))
      rw [hsum, pyRound1_zero]

theorem C3_hard_cutoff_witness :
    calculate_iob {} [{ timestamp := 0, insulin := some 3 }] 60000 = 0 ∧
    calculate_cob {} [{ timestamp := 0, carbs := some 30 }] 60000 = 0 := by
  constructor
  · apply C3_hard_cutoff.1
    intro tr htr
    simp only [List.mem_singleton] at htr
    subst htr
    norm_num
  · apply C3_hard_cutoff.2
    intro tr htr
    simp only [List.mem_singleton] at htr
    subst htr
    norm_num

/-- Claim C4: IOB is non-negative for every treatment list and query
time, and for a single positive insulin event it is non-increasing in the
query time from the event time onward. -/
theorem C4_iob_nonneg_mono :
    (∀ (svc : IOBCOBService) (treatments : List Treatment) (t : ℚ),
      0 ≤ calculate_iob svc treatments t) ∧
    (∀ (svc : IOBCOBService) (tr : Treatment) (amt t1 t2 : ℚ),
      tr.insulin = some amt → 0 < amt → 0 < svc.insulin_half_life_min →
      tr.timestamp ≤ t1 → t1 ≤ t2 →
      calculate_iob svc [tr] t2 ≤ calculate_iob svc [tr] t1) := by
  constructor
  · exact calculate_iob_nonneg
  · intro svc tr amt t1 t2 hins hamt hhl ht1 ht12
    have hpos : insulinPositive tr = true := by
      unfold insulinPositive
      rw [hins]
      simpa using hamt
    have hfilter : ([tr].filter insulinPositive) = [tr] := by
      simp [List.filter, hpos]
    have hiob : ∀ s : ℚ, calculate_iob svc [tr] s =
        pyRound2 (if 0 ≤ (s - tr.timestamp) / 60 ∧
            (s - tr.timestamp) / 60 ≤ svc.insulin_duration_min then
          ((tr.insulin.getD 0 : ℚ) : ℝ) *
            halfPow ((s - tr.timestamp) / 60 / svc.insulin_half_life_min)
        else 0) := by
      intro s
      unfold calculate_iob
      rw [if_neg (by simp), hfilter]
      simp
    rw [hiob t1, hiob t2]
    set e1 : ℚ := (t1 - tr.timestamp) / 60 with he1
    set e2 : ℚ := (t2 - tr.timestamp) / 60 with he2
    have he1nn : 0 ≤ e1 := by
      rw [he1]
      apply div_nonneg (by linarith) (by norm_num)
    have he12 : e1 ≤ e2 := by
      rw [he1, he2]
      apply div_le_div_of_nonneg_right (by linarith) (by norm_num)
    by_cases hcut : e2 ≤ svc.insulin_duration_min
    · have he2nn : 0 ≤ e2 := le_trans he1nn he12
      rw [if_pos ⟨he2nn, hcut⟩, if_pos ⟨he1nn, le_trans he12 hcut⟩]
      apply pyRound2_le_pyRound2
      apply mul_le_mul_of_nonneg_left
      · unfold halfPow
        apply Real.rpow_le_rpow_of_exponent_ge (by norm_num) (by norm_num)
        have : e1 / svc.insulin_half_life_min ≤ e2 / svc.insulin_half_life_min :=
          div_le_div_of_nonneg_right he12 hhl.le
        exact_mod_cast this
      · rw [hins]
        exact_mod_cast hamt.le
    · rw [if_neg (by rintro ⟨-, h⟩; exact hcut h), pyRound2_zero]
      split_ifs with hin
      · apply pyRound2_nonneg
        apply mul_nonneg
        · rw [hins]; exact_mod_cast hamt.le
        · exact Real.rpow_nonneg (by norm_num) _
      · rw [pyRound2_zero]

theorem C4_iob_nonneg_mono_witness :
    0 ≤ calculate_iob {} [] 0 ∧
    calculate_iob {} [{ timestamp := 0, insulin := some 2 }] 18000 ≤
      calculate_iob {} [{ timestamp := 0, insulin := some 2 }] 12000 :=
  ⟨C4_iob_nonneg_mono.1 {} [] 0,
   C4_iob_nonneg_mono.2 {} { timestamp := 0, insulin := some 2 } 2 12000 18000
     rfl (by norm_num) (by norm_num) (by norm_num) (by norm_num)⟩

/-- Claim C8: with fewer than 2 glucose values `LinearPredictor.predict`
returns the last known value (default 100 for an empty list) repeated for
all three horizons with slope 0; the function is total and its prediction
list always has one entry per horizon. -/
theorem C8_linear_degenerate (values : List ℚ) :
    ((({} : LinearPredictor).predict values 5).1.length = 3) ∧
    (∀ v, values = [v] →
      ({} : LinearPredictor).predict values 5 = ([v, v, v], 0, v)) ∧
    (values = [] →
      ({} : LinearPredictor).predict values 5 = ([100, 100, 100], 0, 100)) := by
  refine ⟨?_, ?_, ?_⟩
  · simp only [LinearPredictor.predict]
    split_ifs <;> simp
  · intro v hv
    subst hv
    simp [LinearPredictor.predict]
  · intro hv
    subst hv
    simp [LinearPredictor.predict]

theorem C8_linear_degenerate_witness :
    ({} : LinearPredictor).predict [120] 5 = ([120, 120, 120], 0, 120) ∧
    ({} : LinearPredictor).predict [] 5 = ([100, 100, 100], 0, 100) :=
  ⟨(C8_linear_degenerate [120]).2.1 120 rfl, (C8_linear_degenerate []).2.2 rfl⟩

/-- Claim C9: the sensitivity predictor never returns `None`; with the
model unloaded or any failure it returns the configured default, with a
successful model call the output is clamped into `[10, 150]`; since the
default starts at 50 and its setter clamps, every reachable return value
lies in `[10, 150]`. -/
theorem C9_isf_never_null_clamped :
    (∀ (svc : ISFInferenceService) (call : Except Unit ℚ),
      10 ≤ svc.default_isf → svc.default_isf ≤ 150 →
      ∃ v, svc.predict call = some v ∧ 10 ≤ v ∧ v ≤ 150) ∧
    (∀ (svc : ISFInferenceService),
      ¬ svc.loaded → svc.predict (Except.ok 0) = some svc.default_isf) ∧
    (∀ b, (ISFInferenceService.mk0 b).default_isf = 50) ∧
    (∀ (svc : ISFInferenceService) (value : ℚ),
      10 ≤ (svc.set_default_isf value).default_isf ∧
      (svc.set_default_isf value).default_isf ≤ 150) := by
  refine ⟨?_, ?_, ?_, ?_⟩
  · intro svc call h1 h2
    by_cases hl : svc.loaded
    · cases call with
      | error e =>
        refine ⟨svc.default_isf, ?_, h1, h2⟩
        simp [ISFInferenceService.predict, hl]
      | ok v =>
        refine ⟨max 10 (min 150 v), ?_, le_max_left _ _,
          max_le (by norm_num) (min_le_left _ _)⟩
        simp [ISFInferenceService.predict, hl]
    · refine ⟨svc.default_isf, ?_, h1, h2⟩
      simp [ISFInferenceService.predict, hl]
  · intro svc h
    simp [ISFInferenceService.predict, h]
  · intro b
    rfl
  · intro svc value
    exact ⟨le_max_left _ _, max_le (by norm_num) (min_le_left _ _)⟩

theorem C9_isf_never_null_clamped_witness :
    ∃ v, (ISFInferenceService.mk0 false).predict (Except.ok 0) = some v ∧
      10 ≤ v ∧ v ≤ 150 :=
  C9_isf_never_null_clamped.1 (ISFInferenceService.mk0 false) (Except.ok 0)
    (by norm_num [ISFInferenceService.mk0]) (by norm_num [ISFInferenceService.mk0])

/-- How `_evaluate_record` updates the two win counters when the record
carries lstm predictions. -/
theorem evaluateRecord_wins (st : AccuracyTracker) (r : PredictionRecord)
    (a5 a10 a15 l5 l10 l15 : ℚ) (h : r.lstm = some (l5, l10, l15)) :
    (evaluateRecord st r a5 a10 a15).lstm_wins =
      (if (|l5 - a5| + |l10 - a10| + |l15 - a15|) / 3 <
          (|r.linear5 - a5| + |r.linear10 - a10| + |r.linear15 - a15|) / 3 then
        st.lstm_wins + 1 else st.lstm_wins) ∧
    (evaluateRecord st r a5 a10 a15).linear_wins =
      (if (|l5 - a5| + |l10 - a10| + |l15 - a15|) / 3 <
          (|r.linear5 - a5| + |r.linear10 - a10| + |r.linear15 - a15|) / 3 then
        st.linear_wins else st.linear_wins + 1) := by
  simp only [evaluateRecord, h]
  split_ifs <;> simp

/-- The aggregate winner computed by `get_accuracy`. -/
theorem get_accuracy_winner (tr : AccuracyTracker) (hours : ℕ) :
    (get_accuracy tr hours).winner =
      (if tr.lstmErrors.isEmpty then "linear"
       else if (calculate_metrics tr.lstmErrors).mae_overall <
           (calculate_metrics tr.linearErrors).mae_overall then "lstm"
       else "linear") := by
  by_cases h : tr.lstmErrors.isEmpty
  · simp [get_accuracy, h]
  · simp only [get_accuracy, h]
    split_ifs <;> simp_all

/-- Claim C10: tie-breaking favours linear.  Per evaluated record the
sequence win counter is incremented exactly when the lstm mean absolute
error over the three horizons is strictly lower (a tie increments the
linear counter), and the aggregate `winner` is `"lstm"` only when the
lstm overall MAE is strictly lower than the linear one (equality gives
`"linear"`). -/
theorem C10_tie_breaking :
    (∀ (st : AccuracyTracker) (r : PredictionRecord) (a5 a10 a15 l5 l10 l15 : ℚ),
      r.lstm = some (l5, l10, l15) →
      (((evaluateRecord st r a5 a10 a15).lstm_wins = st.lstm_wins + 1 ↔
        (|l5 - a5| + |l10 - a10| + |l15 - a15|) / 3 <
          (|r.linear5 - a5| + |r.linear10 - a10| + |r.linear15 - a15|) / 3) ∧
       ((|l5 - a5| + |l10 - a10| + |l15 - a15|) / 3 =
          (|r.linear5 - a5| + |r.linear10 - a10| + |r.linear15 - a15|) / 3 →
        (evaluateRecord st r a5 a10 a15).linear_wins = st.linear_wins + 1 ∧
        (evaluateRecord st r a5 a10 a15).lstm_wins = st.lstm_wins))) ∧
    (∀ (tr : AccuracyTracker) (hours : ℕ),
      ((get_accuracy tr hours).winner = "lstm" →
        tr.lstmErrors ≠ [] ∧
        (calculate_metrics tr.lstmErrors).mae_overall <
          (calculate_metrics tr.linearErrors).mae_overall) ∧
      ((calculate_metrics tr.lstmErrors).mae_overall =
          (calculate_metrics tr.linearErrors).mae_overall →
        (get_accuracy tr hours).winner = "linear")) := by
  constructor
  · intro st r a5 a10 a15 l5 l10 l15 hlstm
    obtain ⟨hw1, hw2⟩ := evaluateRecord_wins st r a5 a10 a15 l5 l10 l15 hlstm
    constructor
    · rw [hw1]
      constructor
      · intro h
        by_contra hnot
        rw [if_neg hnot] at h
        omega
      · intro h
        rw [if_pos h]
    · intro heq
      have hnlt : ¬ (|l5 - a5| + |l10 - a10| + |l15 - a15|) / 3 <
          (|r.linear5 - a5| + |r.linear10 - a10| + |r.linear15 - a15|) / 3 := by
        rw [heq]
        exact lt_irrefl _
      rw [hw1, hw2, if_neg hnlt, if_neg hnlt]
      exact ⟨rfl, rfl⟩
  · intro tr hours
    rw [get_accuracy_winner]
    by_cases hemp : tr.lstmErrors.isEmpty
    · rw [if_pos hemp]
      exact ⟨fun hW => absurd hW (by decide), fun _ => rfl⟩
    · rw [if_neg hemp]
      constructor
      · intro hW
        refine ⟨by simpa [List.isEmpty_iff] using hemp, ?_⟩
        by_contra hnot
        rw [if_neg hnot] at hW
        exact absurd hW (by decide)
      · intro heq
        rw [if_neg (by rw [heq]; exact lt_irrefl _)]

theorem C10_tie_breaking_witness :
    ((evaluateRecord {} (PredictionRecord.mk 0 100 3 3 3 (some (3, 3, 3))
        none none none false) 1 1 1).linear_wins = 0 + 1 ∧
     (evaluateRecord {} (PredictionRecord.mk 0 100 3 3 3 (some (3, 3, 3))
        none none none false) 1 1 1).lstm_wins = 0) ∧
    ((get_accuracy (AccuracyTracker.mk 1000 [] [] [(2, 2, 2)] 0 0) 24).winner =
        "lstm" →
      (AccuracyTracker.mk 1000 [] [] [(2, 2, 2)] 0 0).lstmErrors ≠ [] ∧
      (calculate_metrics (AccuracyTracker.mk 1000 [] [] [(2, 2, 2)] 0 0).lstmErrors).mae_overall <
        (calculate_metrics (AccuracyTracker.mk 1000 [] [] [(2, 2, 2)] 0 0).linearErrors).mae_overall) :=
  ⟨(C10_tie_breaking.1 {} (PredictionRecord.mk 0 100 3 3 3 (some (3, 3, 3))
      none none none false) 1 1 1 3 3 3 rfl).2 (by norm_num),
   (C10_tie_breaking.2 (AccuracyTracker.mk 1000 [] [] [(2, 2, 2)] 0 0) 24).1⟩

/-- Python `_evaluate_record` never touches the records list. -/
theorem evaluateRecord_records (tr : AccuracyTracker) (r : PredictionRecord)
    (a5 a10 a15 : ℚ) : (evaluateRecord tr r a5 a10 a15).records = tr.records := by
  cases hl : r.lstm with
  | none => simp [evaluateRecord, hl]
  | some l =>
    simp only [evaluateRecord, hl]
    split_ifs <;> rfl

/-- Filling a slot does not change the evaluated flag. -/
theorem fillSlots_evaluated (now value : ℚ) (r : PredictionRecord) :
    (fillSlots now value r).evaluated = r.evaluated := by
  unfold fillSlots
  split_ifs <;> rfl

/-- An actual outside all three tolerance bands fills no slot. -/
theorem fillSlots_outOfBands {now value : ℚ} {r : PredictionRecord}
    (hoob : outOfBands r.timestamp now) : fillSlots now value r = r := by
  obtain ⟨h1, h2, h3⟩ := hoob
  unfold fillSlots
  rw [if_neg (by rintro ⟨ha, hb, -⟩; exact h1 ⟨ha, hb⟩),
      if_neg (by rintro ⟨ha, hb, -⟩; exact h2 ⟨ha, hb⟩),
      if_neg (by rintro ⟨ha, hb, -⟩; exact h3 ⟨ha, hb⟩)]

/-- On an unevaluated record the loop body either just re-appends the
(slot-updated) record, or — exactly when all three slots are filled —
appends it marked evaluated after running `_evaluate_record`. -/
theorem recordActualStep_records_cases (now value : ℚ) (acc : AccuracyTracker)
    (p : PredictionRecord) (hev : ¬ p.evaluated = true) :
    ((recordActualStep now value acc p).records =
        acc.records ++ [fillSlots now value p] ∧
      (recordActualStep now value acc p).records =
        acc.records ++ [fillSlots now value p]) ∨
    ((recordActualStep now value acc p).records =
        acc.records ++ [{ fillSlots now value p with evaluated := true }] ∧
      allFilled (fillSlots now value p)) := by
  unfold recordActualStep
  rw [if_neg hev]
  generalize fillSlots now value p = q
  obtain ⟨ts, bg, l5, l10, l15, ls, a5o, a10o, a15o, ev⟩ := q
  rcases a5o with _ | a5 <;> rcases a10o with _ | a10 <;> rcases a15o with _ | a15 <;>
    dsimp only <;>
      first
        | exact Or.inl ⟨rfl, rfl⟩
        | exact Or.inr ⟨by rw [evaluateRecord_records], ⟨rfl, rfl, rfl⟩⟩

/-- On an unevaluated record whose slots remain incomplete, the loop body
only re-appends the slot-updated record; pools and counters are untouched. -/
theorem recordActualStep_not_filled (now value : ℚ) (acc : AccuracyTracker)
    (p : PredictionRecord) (hev : ¬ p.evaluated = true)
    (hnf : ¬ allFilled (fillSlots now value p)) :
    recordActualStep now value acc p =
      { acc with records := acc.records ++ [fillSlots now value p] } := by
  unfold recordActualStep
  rw [if_neg hev]
  generalize hq : fillSlots now value p = q at hnf ⊢
  obtain ⟨ts, bg, l5, l10, l15, ls, a5o, a10o, a15o, ev⟩ := q
  rcases a5o with _ | a5 <;> rcases a10o with _ | a10 <;> rcases a15o with _ | a15 <;>
    dsimp only <;>
      first
        | rfl
        | exact absurd ⟨rfl, rfl, rfl⟩ hnf

/-- One loop iteration preserves the "evaluated implies all slots filled"
record invariant. -/
theorem recordActualStep_inv (now value : ℚ) (acc : AccuracyTracker)
    (p : PredictionRecord)
    (hacc : ∀ r ∈ acc.records, r.evaluated = true → allFilled r)
    (hp : p.evaluated = true → allFilled p) :
    ∀ r ∈ (recordActualStep now value acc p).records,
      r.evaluated = true → allFilled r := by
  intro r hr
  by_cases hev : p.evaluated
  · unfold recordActualStep at hr
    rw [if_pos hev] at hr
    simp only [List.mem_append, List.mem_singleton] at hr
    rcases hr with hr | rfl
    · exact hacc r hr
    · exact hp
  · rcases recordActualStep_records_cases now value acc p hev with ⟨hc, -⟩ | ⟨hc, hfull⟩
    · rw [hc] at hr
      simp only [List.mem_append, List.mem_singleton] at hr
      rcases hr with hr | rfl
      · exact hacc r hr
      · intro habs
        rw [fillSlots_evaluated] at habs
        exact absurd habs hev
    · rw [hc] at hr
      simp only [List.mem_append, List.mem_singleton] at hr
      rcases hr with hr | rfl
      · exact hacc r hr
      · exact fun _ => hfull

/-- Folding the loop body over a record list preserves the invariant. -/
theorem foldl_recordActualStep_inv (now value : ℚ) :
    ∀ (rs : List PredictionRecord) (acc : AccuracyTracker),
      (∀ r ∈ acc.records, r.evaluated = true → allFilled r) →
      (∀ r ∈ rs, r.evaluated = true → allFilled r) →
      ∀ r ∈ (rs.foldl (recordActualStep now value) acc).records,
        r.evaluated = true → allFilled r := by
  intro rs
  induction rs with
  | nil => intro acc hacc _; exact hacc
  | cons head tail ih =>
    intro acc hacc hall
    rw [List.foldl_cons]
    exact ih _ (recordActualStep_inv now value acc head hacc (hall head (by simp)))
      (fun r hr => hall r (by simp [hr]))

/-- A `record_actual` call whose actual misses every band of the single
buffered (unevaluated, not-yet-filled) record changes nothing at all. -/
theorem record_actual_single_unchanged (tr : AccuracyTracker)
    (p : PredictionRecord) (now value : ℚ) (hrec : tr.records = [p])
    (hev : p.evaluated = false) (hnf : ¬ allFilled p)
    (hoob : outOfBands p.timestamp now) :
    record_actual tr now value = tr := by
  unfold record_actual
  rw [hrec]
  simp only [List.foldl_cons, List.foldl_nil]
  rw [recordActualStep_not_filled _ _ _ _ (by simp [hev])
      (by rw [fillSlots_outOfBands hoob]; exact hnf),
    fillSlots_outOfBands hoob]
  cases tr with
  | mk m rs le se lw sw =>
    simp only at hrec
    simp [hrec]

/-- Claim C7: a record becomes evaluated only once all three horizon
slots are filled (the invariant is preserved by `record_actual`), and a
record that never fills all three slots leaves the tracker — error pools
and win counters included — completely unchanged under arbitrarily many
out-of-band actuals. -/
theorem C7_eval_requires_all_slots :
    (∀ (tr : AccuracyTracker) (now value : ℚ),
      (∀ r ∈ tr.records, r.evaluated = true → allFilled r) →
      ∀ r ∈ (record_actual tr now value).records,
        r.evaluated = true → allFilled r) ∧
    (∀ (tr : AccuracyTracker) (p : PredictionRecord) (calls : List (ℚ × ℚ)),
      tr.records = [p] → p.evaluated = false → ¬ allFilled p →
      (∀ c ∈ calls, outOfBands p.timestamp c.1) →
      calls.foldl (fun t c => record_actual t c.1 c.2) tr = tr) := by
  constructor
  · intro tr now value hinv
    unfold record_actual
    exact foldl_recordActualStep_inv now value tr.records _
      (fun r hr => absurd hr (List.not_mem_nil r)) hinv
  · intro tr p calls
    induction calls generalizing tr with
    | nil => intro _ _ _ _; rfl
    | cons c rest ih =>
      intro hrec hev hnf hoob
      rw [List.foldl_cons,
        record_actual_single_unchanged tr p c.1 c.2 hrec hev hnf
          (hoob c (by simp))]
      exact ih tr hrec hev hnf (fun d hd => hoob d (by simp [hd]))

theorem C7_eval_requires_all_slots_witness :
    (∀ r ∈ (record_actual (AccuracyTracker.mk 1000 [] [] [] 0 0) 300 120).records,
      r.evaluated = true → allFilled r) ∧
    ([((12000 : ℚ), (100 : ℚ))].foldl (fun t c => record_actual t c.1 c.2)
      (AccuracyTracker.mk 1000
        [PredictionRecord.mk 0 100 3 3 3 none none none none false] [] [] 0 0) =
      AccuracyTracker.mk 1000
        [PredictionRecord.mk 0 100 3 3 3 none none none none false] [] [] 0 0) :=
  ⟨C7_eval_requires_all_slots.1 (AccuracyTracker.mk 1000 [] [] [] 0 0) 300 120
      (fun r hr => absurd hr (List.not_mem_nil r)),
   C7_eval_requires_all_slots.2 _ (PredictionRecord.mk 0 100 3 3 3 none none none none false)
      [((12000 : ℚ), (100 : ℚ))] rfl rfl
      (by intro h; simp [allFilled] at h)
      (by
        intro c hc
        simp only [List.mem_singleton] at hc
        subst hc
        constructor
        · norm_num
        constructor <;> norm_num)⟩

theorem listModify_length {α : Type} (l : List α) (i : ℕ) (f : α → α) :
    (listModify l i f).length = l.length := by
  induction l generalizing i with
  | nil => rfl
  | cons x xs ih =>
    cases i with
    | zero => rfl
    | succ n => simp [listModify, ih]

/-- Merging a treatment onto the closest reading preserves the row count. -/
theorem applyTreatment_length (rows : List PrepRow) (tr : TreatmentDict) :
    (applyTreatment rows tr).length = rows.length := by
  unfold applyTreatment
  split_ifs <;> simp [listModify_length]

theorem foldl_applyTreatment_length (ts : List TreatmentDict) :
    ∀ rows : List PrepRow, (ts.foldl applyTreatment rows).length = rows.length := by
  induction ts with
  | nil => intro rows; rfl
  | cons t rest ih =>
    intro rows
    rw [List.foldl_cons, ih, applyTreatment_length]

/-- With at least one reading, `prepare_realtime_features` yields a frame
with one row per reading. -/
theorem prepare_realtime_features_some {glucose_readings : List Reading}
    (treatments : List TreatmentDict) (iob_value : ℚ)
    (h : ¬ glucose_readings.isEmpty) :
    ∃ df, prepare_realtime_features glucose_readings treatments iob_value = some df ∧
      df.length = glucose_readings.length := by
  unfold prepare_realtime_features
  rw [if_neg h]
  exact ⟨_, rfl, by simp [foldl_applyTreatment_length]⟩

/-- Feature engineering on well-typed rows preserves the row count. -/
theorem engineer_features_length (df : List PrepRow) :
    (engineer_features df).length = df.length := by
  unfold engineer_features
  by_cases h : df.isEmpty
  · rw [if_pos h]
    cases df with
    | nil => rfl
    | cons x xs => exact absurd h (by simp)
  · rw [if_neg h]
    simp

/-- Every engineered row projects to exactly 26 feature values. -/
theorem featureList_length (e : EngRow) : (featureList e).length = 26 := rfl

/-- Claim C6: `get_feature_sequence` returns null exactly on fewer than
`seqLen = 24` buffered samples; otherwise it returns a sequence of exactly
24 time-steps of 26 feature values each. -/
theorem C6_sequence_shape (fe : FeatureEngineer) (iob_value : ℚ) :
    (fe.glucoseBuffer.length < 24 → fe.get_feature_sequence iob_value 24 = none) ∧
    (24 ≤ fe.glucoseBuffer.length →
      ∃ s, fe.get_feature_sequence iob_value 24 = some s ∧ s.length = 24 ∧
        ∀ row ∈ s, row.length = 26) := by
  constructor
  · intro h
    unfold FeatureEngineer.get_feature_sequence
    rw [if_pos h]
  · intro h
    unfold FeatureEngineer.get_feature_sequence
    rw [if_neg (not_lt.mpr h)]
    have hne : ¬ fe.glucoseBuffer.isEmpty := by
      cases hb : fe.glucoseBuffer with
      | nil => rw [hb] at h; simp at h
      | cons x xs => simp
    obtain ⟨df, hdf, hlen⟩ :=
      prepare_realtime_features_some fe.treatmentBuffer iob_value hne
    rw [hdf]
    dsimp only
    have hlen2 : (engineer_features df).length = fe.glucoseBuffer.length := by
      rw [engineer_features_length, hlen]
    have hne2 : ¬ (engineer_features df).isEmpty := by
      cases he : engineer_features df with
      | nil =>
        exfalso
        rw [he] at hlen2
        simp at hlen2
        omega
      | cons x xs => simp
    rw [if_neg hne2]
    unfold extract_feature_sequence
    rw [if_neg (by rw [hlen2]; exact not_lt.mpr h)]
    refine ⟨_, rfl, ?_, ?_⟩
    · rw [List.length_map, List.length_drop, hlen2]
      omega
    · intro row hrow
      obtain ⟨e, -, rfl⟩ := List.mem_map.mp hrow
      exact featureList_length e

theorem C6_sequence_shape_witness :
    (FeatureEngineer.mk 180 5
      (List.replicate 23 (Reading.mk (Timestamp.mk 0 0 0 0 1 1) 100 0))
      []).get_feature_sequence 0 24 = none ∧
    ∃ s, (FeatureEngineer.mk 180 5
      (List.replicate 24 (Reading.mk (Timestamp.mk 0 0 0 0 1 1) 100 0))
      []).get_feature_sequence 0 24 = some s ∧
      s.length = 24 ∧ ∀ row ∈ s, row.length = 26 :=
  ⟨(C6_sequence_shape _ 0).1 (by simp),
   (C6_sequence_shape _ 0).2 (by simp)⟩

/-- Inversion of the LSTM branch of `predict`: a non-null `lstm_preds`
requires an available model, no exception, a truthy history, a non-null
feature sequence built from that call's rebuilt buffers, and a non-null
model output. -/
theorem predictLstmPreds_eq_some (ps : PredictionService) (iob : ℚ)
    (glucose_history : Option (List Reading))
    (treatments : Option (List TreatmentDict)) (now : ℚ) (seqExc : Bool)
    (bgModelCall : List (List ℝ) → Option (List ℚ × List ℚ)) (p : List ℚ)
    (hp : predictLstmPreds ps iob glucose_history treatments now seqExc
        bgModelCall = some p) :
    ps.lstm_available = true ∧ seqExc = false ∧
    ∃ h, glucose_history = some h ∧ h ≠ [] ∧
      ∃ s scaled,
        (rebuildBuffers ps.feature_engineer h treatments now).get_feature_sequence
          iob SEQ_LENGTH = some s ∧
        bgModelCall s = some (p, scaled) := by
  unfold predictLstmPreds at hp
  cases glucose_history with
  | none => exact absurd hp (by simp)
  | some h =>
    dsimp only at hp
    by_cases hcond : ps.lstm_available ∧ ¬ h.isEmpty ∧ ¬ seqExc
    · rw [if_pos hcond] at hp
      obtain ⟨hav, hne, hexc⟩ := hcond
      cases hseq : (rebuildBuffers ps.feature_engineer h treatments
          now).get_feature_sequence iob SEQ_LENGTH with
      | none => rw [hseq] at hp; exact absurd hp (by simp)
      | some s =>
        rw [hseq] at hp
        dsimp only at hp
        cases hbg : bgModelCall s with
        | none => rw [hbg] at hp; exact absurd hp (by simp)
        | some result =>
          rw [hbg] at hp
          dsimp only at hp
          simp only [Option.some.injEq] at hp
          refine ⟨hav, by simpa using hexc, h, rfl, ?_, s, result.2, hseq, ?_⟩
          · intro habs
            rw [habs] at hne
            exact hne rfl
          · rw [hbg, ← hp]
    · rw [if_neg hcond] at hp
      exact absurd hp (by simp)

/-- Claim C5: `predict` tags its result `"lstm"` only when the sequence
model is available, no exception occurred, the history is non-empty, the
feature sequence built in that same call is non-null and the model call
returned a non-null, non-empty prediction list (which is then the `lstm`
field); every result is tagged either `"lstm"` or `"linear"`. -/
theorem C5_method_tag (ps : PredictionService) (current_bg : ℚ) (trend : ℤ)
    (iob : ℚ) (glucose_history : Option (List Reading))
    (treatments : Option (List TreatmentDict)) (now : ℚ) (seqExc : Bool)
    (bgModelCall : List (List ℝ) → Option (List ℚ × List ℚ))
    (isfExc : Bool) (isfModelCall : Except Unit ℚ) (r : PredictionResult)
    (hr : r = ps.predict current_bg trend iob glucose_history treatments now
        seqExc bgModelCall isfExc isfModelCall) :
    (r.method = "lstm" ∨ r.method = "linear") ∧
    (r.method = "lstm" →
      ps.lstm_available = true ∧ seqExc = false ∧
      ∃ h, glucose_history = some h ∧ h ≠ [] ∧
        ∃ s preds scaled,
          (rebuildBuffers ps.feature_engineer h treatments now).get_feature_sequence
            iob SEQ_LENGTH = some s ∧
          bgModelCall s = some (preds, scaled) ∧ preds ≠ [] ∧
          r.lstm = some preds) := by
  have hmethod : r.method =
      (match predictLstmPreds ps iob glucose_history treatments now seqExc
          bgModelCall with
       | some p => if p.isEmpty then "linear" else "lstm"
       | none => "linear") := by
    rw [hr]
    rfl
  have hlstm : r.lstm =
      predictLstmPreds ps iob glucose_history treatments now seqExc
        bgModelCall := by
    rw [hr]
    rfl
  cases hp : predictLstmPreds ps iob glucose_history treatments now seqExc
      bgModelCall with
  | none =>
    rw [hp] at hmethod
    simp only at hmethod
    exact ⟨Or.inr hmethod, fun hm => absurd (hmethod ▸ hm) (by decide)⟩
  | some p =>
    rw [hp] at hmethod
    simp only at hmethod
    by_cases hpe : p.isEmpty
    · rw [if_pos hpe] at hmethod
      exact ⟨Or.inr hmethod, fun hm => absurd (hmethod ▸ hm) (by decide)⟩
    · rw [if_neg hpe] at hmethod
      refine ⟨Or.inl hmethod, fun _ => ?_⟩
      obtain ⟨hav, hexc, h, hh, hne, s, scaled, hseq, hbg⟩ :=
        predictLstmPreds_eq_some ps iob glucose_history treatments now seqExc
          bgModelCall p hp
      refine ⟨hav, hexc, h, hh, hne, s, p, scaled, hseq, hbg, ?_, ?_⟩
      · intro habs
        rw [habs] at hpe
        exact hpe rfl
      · rw [hlstm, hp]

theorem C5_method_tag_witness :
    ((PredictionService.mk false none {} {}).predict 120 0 0 none none 0 false
        (fun _ => none) false (Except.ok 50)).method = "lstm" ∨
    ((PredictionService.mk false none {} {}).predict 120 0 0 none none 0 false
        (fun _ => none) false (Except.ok 50)).method = "linear" :=
  (C5_method_tag (PredictionService.mk false none {} {}) 120 0 0 none none 0
    false (fun _ => none) false (Except.ok 50) _ rfl).1

end T1D
